import Mathlib

/-!
A shallow embedding of the client-side preflop action visualizer of the
poker-trainer front end (`components/Table/PokerTable.jsx`), of the
game-state hook (`hooks/useGameState.js`, the variant that exposes
`triggerComputerAction`), and of the seat-building function `getAllSeats`.

Pure view logic is translated directly from the source.  React `useState`
pieces become an explicit state record, the `useRef` hand-identity cell is
passed explicitly, each `useEffect` body becomes a state-transition
function, and the `setTimeout` callback of the progression effect is split
at its `await` point into two phases so that interleavings with the
new-hand reset can be analysed.  Machine integers do not occur; the only
numbers are millisecond delays, indices, and chip counts, modelled as `Nat`.
-/

namespace PokerTrainerV2

/-- The six seat-position labels of the six-max table. -/
inductive Pos
  | BTN | SB | BB | UTG | MP | CO
deriving DecidableEq, Repr, Fintype

/-- Betting street as reported by the backend (`gameState.street`). -/
inductive Street
  | preflop | flop | turn | river
deriving DecidableEq, Repr

/-- `POSITION_ORDER`: clockwise seating order around the table (from seat 0). -/
def POSITION_ORDER : List Pos := [.BTN, .SB, .BB, .UTG, .MP, .CO]

/-- `PREFLOP_ACTION_ORDER`: preflop first-to-act order (UTG acts first). -/
def PREFLOP_ACTION_ORDER : List Pos := [.UTG, .MP, .CO, .BTN, .SB, .BB]

/-- One entry of the backend's chronological `action_history`. -/
structure HistEntry where
  position : Pos
  action : String
  amount : Nat
deriving DecidableEq, Repr

/-- A backend per-seat player record (only the fields this front end reads). -/
structure Player where
  is_human : Bool
  hole_cards : Option (List String)
  cards : Option (List String)
  stack : Nat
  current_bet : Nat
deriving DecidableEq, Repr

/-- The authoritative game-state snapshot, with the fields the embedded code
reads.  `players` maps a position label to the player record stored under
that key (`none` models an absent key). -/
structure GameState where
  hand_id : Option Nat
  street : Street
  human_position : Pos
  villain_position : Pos
  action_on : Option Pos
  players : Pos → Option Player
  hand_complete : Bool
  action_history : Option (List HistEntry)

/-- The visualizer's three `useState` pieces in `PokerTable`:
`visualActionOn`, `foldedPositions`, `preflopDone`
(the last is the spec's `isPreflopVisualSequenceComplete`).
A JavaScript `Set` is insertion-ordered and duplicate-free, so
`foldedPositions` is modelled as a duplicate-free list in insertion order;
the only read of it in the source is membership (`has`). -/
structure VisState where
  visualActionOn : Option Pos
  foldedPositions : List Pos
  preflopDone : Bool
deriving DecidableEq

/-- `Set.add` of a JavaScript `Set` (also the effect of spreading the old
set into a new-set literal together with one extra element): append the
element unless it is already present. -/
def jsSetAdd (s : List Pos) (p : Pos) : List Pos :=
  if p ∈ s then s else s ++ [p]

/-- The hand-identity key stored in `handIdRef`. -/
abbrev HandKey := Pos × Pos × Nat

/-- The source builds the template string
`hero-villain-(gameState.hand_id || Date.now())`; position labels contain
no dash and the last component is a number, so the string is injective in
the three components and is modelled as the triple itself.
`gameState.hand_id || Date.now()` is JavaScript falsiness: an absent or
zero `hand_id` falls back to the timestamp `now`. -/
def handKey (g : GameState) (now : Nat) : HandKey :=
  (g.human_position, g.villain_position,
    match g.hand_id with
    | some h => if h = 0 then now else h
    | none => now)

/-- The new-hand reset effect (`PokerTable.jsx` lines 24-38).  Takes the
current `handIdRef` contents and visualizer state; returns the updated ref,
the updated state, and the argument of the `onHeroCanAct` call if one was
made.  On a changed hand key it resets `foldedPositions` to empty, clears
`preflopDone`, starts the visual action at UTG, and signals
`onHeroCanAct(false)`. -/
def newHandEffect (gameState : Option GameState) (now : Nat)
    (ref : Option HandKey) (st : VisState) :
    Option HandKey × VisState × Option Bool :=
  match gameState with
  | none => (ref, st, none)
  | some g =>
    let currentHandId := handKey g now
    if ref = some currentHandId then (ref, st, none)
    else
      (some currentHandId,
       { visualActionOn := some Pos.UTG
         foldedPositions := []
         preflopDone := false },
       some false)

/-- The `action_history` synchronisation effect (`PokerTable.jsx` lines
41-55): every position that the authoritative history reports as having
folded is unioned into `foldedPositions`.  The source only calls the state
setter when the filtered list is non-empty; the guard is kept. -/
def historySyncEffect (gameState : Option GameState) (st : VisState) : VisState :=
  match gameState with
  | none => st
  | some g =>
    match g.action_history with
    | none => st
    | some hist =>
      let foldedFromHistory := (hist.filter (fun a => a.action == "fold")).map HistEntry.position
      if 0 < foldedFromHistory.length then
        { st with foldedPositions := foldedFromHistory.foldl jsSetAdd st.foldedPositions }
      else st

/-- The synchronous part of the preflop progression effect
(`PokerTable.jsx` lines 57-104), up to the point where it either returns,
signals, or schedules the `setTimeout` callback.  Result components: the
(possibly updated) state, the argument of an `onHeroCanAct` call if one was
made, and `some (delay, p)` when a timer step at position `p` was scheduled
after `delay` milliseconds. -/
def progressionEffect (gameStatePresent : Bool) (street : Street)
    (heroPosition villainPosition : Pos) (st : VisState) :
    VisState × Option Bool × Option (Nat × Pos) :=
  -- source guard: `if (!gameState || preflopDone || !visualActionOn) return;`
  if ¬gameStatePresent ∨ st.preflopDone = true ∨ st.visualActionOn = none then
    (st, none, none)
  else
    match st.visualActionOn with
    | none => (st, none, none)  -- unreachable under the guard above
    | some p =>
      if street ≠ Street.preflop then
        ({ st with preflopDone := true }, some true, none)
      else if p = heroPosition then
        (st, some true, none)
      else
        -- source: `const delay = isVillain ? 500 : 500;`
        let delay := if p = villainPosition then 500 else 500
        (st, none, some (delay, p))

/-- Phase A of the scheduled timer callback (`PokerTable.jsx` lines 80-83),
the part that runs before `await onComputerAction?.()`: optimistically mark
the highlighted position as folded unless it is the villain seat. -/
def stepPhaseA (villainPosition p : Pos) (st : VisState) : VisState :=
  if p = villainPosition then st
  else { st with foldedPositions := jsSetAdd st.foldedPositions p }

/-- Phase B of the scheduled timer callback (`PokerTable.jsx` lines 88-100),
the part that runs after the awaited call resolves: compute the next
position in first-to-act order as `(indexOf p + 1) % 6`; if it is the
hero's, set `preflopDone`, clear the highlight and signal
`onHeroCanAct(true)`; otherwise move the highlight there.
(JavaScript `indexOf` returns -1 on a miss and `order[i]` is undefined out
of range; both are unreachable here because every label occurs in the
order list and the index is reduced mod 6, so `getD` never uses its
default.) -/
def stepPhaseB (heroPosition p : Pos) (st : VisState) : VisState × Option Bool :=
  let currentIndex := PREFLOP_ACTION_ORDER.indexOf p
  let nextIndex := (currentIndex + 1) % 6
  let nextPosition := PREFLOP_ACTION_ORDER.getD nextIndex Pos.UTG
  if nextPosition = heroPosition then
    ({ st with preflopDone := true, visualActionOn := none }, some true)
  else
    ({ st with visualActionOn := some nextPosition }, none)

/-- The hook-level state touched by `triggerComputerAction`
(`useGameState.js`): the authoritative snapshot and the generic error
channel. -/
structure HookState where
  gameState : Option GameState
  error : Option String

/-- Outcome of the awaited `gameApi.computerAction()` promise: it either
resolves with the updated snapshot or rejects carrying an optional
`err.response.data.error` payload. -/
abbrev ApiOutcome := Except (Option String) GameState

/-- `useGameState.triggerComputerAction`: makes one `computerAction` API
call; on success stores the snapshot and returns it, on failure sets the
generic error message and returns `null`.  The returned promise therefore
always resolves — the failure is swallowed here. -/
def triggerComputerAction (result : ApiOutcome) (hs : HookState) :
    HookState × Option GameState :=
  match result with
  | .ok state => ({ hs with gameState := some state }, some state)
  | .error e =>
    ({ hs with error := some (e.getD "Failed to process computer action") }, none)

/-- The full result of one run of the scheduled timer callback. -/
structure CallbackOut where
  hook : HookState
  vis : VisState
  heroCanActSignal : Option Bool
  advanceCalls : Nat

/-- The whole `setTimeout` callback of the progression effect
(`PokerTable.jsx` lines 79-101) run to completion without interruption:
phase A, then exactly one awaited `onComputerAction` call (wired to
`triggerComputerAction` by `App.jsx`), then phase B.  Because
`triggerComputerAction` never rejects, phase B runs for both outcomes. -/
def timerCallback (heroPosition villainPosition p : Pos) (result : ApiOutcome)
    (hs : HookState) (st : VisState) : CallbackOut :=
  let st1 := stepPhaseA villainPosition p st
  let hs1 := (triggerComputerAction result hs).1
  let r := stepPhaseB heroPosition p st1
  { hook := hs1, vis := r.1, heroCanActSignal := r.2, advanceCalls := 1 }

/-- One visited step of the preflop sequence: the highlighted position, the
visual delay before the step, and whether the advance-one-computer-action
collaborator was invoked during the step. -/
structure SeqStep where
  pos : Pos
  delay : Nat
  advanceCalled : Bool
deriving DecidableEq, Repr

/-- The preflop sequencing loop while the authoritative street stays fixed:
repeatedly run the progression effect; each scheduled timer step runs phase
A, one collaborator call, and phase B, and the effect re-runs on the
updated state (React re-runs it because `visualActionOn` changed).  `fuel`
bounds the number of effect runs; 6 suffices for a six-seat table.  Returns
the list of visited steps, the final state, and the arguments of all
`onHeroCanAct` calls in order. -/
def runSequencer (street : Street) (heroPosition villainPosition : Pos) :
    VisState → Nat → List SeqStep × VisState × List Bool
  | st, 0 => ([], st, [])
  | st, fuel + 1 =>
    match progressionEffect true street heroPosition villainPosition st with
    | (st1, sig, none) => ([], st1, sig.toList)
    | (_, _, some (d, p)) =>
      let stA := stepPhaseA villainPosition p st
      let r := stepPhaseB heroPosition p stA
      let rest := runSequencer street heroPosition villainPosition r.1 fuel
      (⟨p, d, true⟩ :: rest.1, rest.2.1, r.2.toList ++ rest.2.2)

/-- The lifecycle of one scheduled timer step.  `scheduled` records the
values captured by the effect closure; `inFlight` means the callback has
started and is awaiting the collaborator call. -/
inductive PendingStep
  | idle
  | scheduled (hero villain p : Pos)
  | inFlight (hero villain p : Pos)
deriving DecidableEq, Repr

/-- The component-level state relevant to cancellation: the visualizer
state, the `handIdRef` cell, and the lifecycle of the one scheduled step. -/
structure Machine where
  st : VisState
  ref : Option HandKey
  pending : PendingStep
deriving DecidableEq

/-- Asynchronous events interleaving with the visualizer.  `newHand`
models the arrival of a snapshot with a fresh hand identity: React first
runs the progression effect's cleanup (`clearTimeout`), which cancels a
scheduled-but-not-yet-fired timer and does nothing to a callback that has
already started, and then the reset effect.  `unmountCleanup` models
component teardown, which runs only the `clearTimeout` cleanup. -/
inductive VisEvent
  | timerFires
  | advanceResolves
  | newHand (g : GameState) (now : Nat)
  | unmountCleanup

/-- Small-step semantics of the interleaving.  `timerFires` runs phase A
and leaves the callback awaiting the collaborator; `advanceResolves` runs
phase B with the values captured at scheduling time (the stale closure);
`newHand` cancels a still-scheduled timer and applies the reset effect; an
in-flight callback is beyond the reach of `clearTimeout` and survives. -/
def applyEvent (m : Machine) (e : VisEvent) : Machine :=
  match e with
  | .timerFires =>
    match m.pending with
    | .scheduled h v p => { m with st := stepPhaseA v p m.st, pending := .inFlight h v p }
    | _ => m
  | .advanceResolves =>
    match m.pending with
    | .inFlight h _ p =>
      { m with st := (stepPhaseB h p m.st).1, pending := .idle }
    | _ => m
  | .newHand g now =>
    let cancelled : PendingStep :=
      match m.pending with
      | .scheduled _ _ _ => .idle
      | other => other
    let r := newHandEffect (some g) now m.ref m.st
    { st := r.2.1, ref := r.1, pending := cancelled }
  | .unmountCleanup =>
    match m.pending with
    | .scheduled _ _ _ => { m with pending := .idle }
    | _ => m

/-- The operations that can touch the visualizer state, for the invariant
claims: the three effects and the two phases of the timer callback. -/
inductive VisOp
  | newHandCheck (gameState : Option GameState) (now : Nat)
  | historySync (gameState : Option GameState)
  | progressionRun (gameStatePresent : Bool) (street : Street) (hero villain : Pos)
  | timerPhaseA (villain p : Pos)
  | timerPhaseB (hero p : Pos)

/-- The ref cell together with the visualizer state. -/
structure FullState where
  ref : Option HandKey
  vis : VisState

/-- Apply one visualizer operation. -/
def applyOp (op : VisOp) (m : FullState) : FullState :=
  match op with
  | .newHandCheck gs now =>
    let r := newHandEffect gs now m.ref m.vis
    ⟨r.1, r.2.1⟩
  | .historySync gs => ⟨m.ref, historySyncEffect gs m.vis⟩
  | .progressionRun b s h v => ⟨m.ref, (progressionEffect b s h v m.vis).1⟩
  | .timerPhaseA v p => ⟨m.ref, stepPhaseA v p m.vis⟩
  | .timerPhaseB h p => ⟨m.ref, (stepPhaseB h p m.vis).1⟩

/-- Whether an operation is a new-hand detection: the reset effect sees a
snapshot whose hand key differs from the one stored in the ref. -/
def isNewHandDetection (op : VisOp) (ref : Option HandKey) : Bool :=
  match op with
  | .newHandCheck (some g) now => decide (ref ≠ some (handKey g now))
  | _ => false

/-- The player object a seat renders (`getAllSeats`' spread
`{...player, position, cards, current_bet}`). -/
structure SeatPlayer where
  base : Option Player
  position : Pos
  cards : Option (List String)
  current_bet : Nat
deriving DecidableEq, Repr

/-- The `emptyPlayerData` object passed for non-hero, non-villain seats. -/
structure EmptySeatData where
  stack : Nat
  current_bet : Nat
deriving DecidableEq, Repr

/-- One element of the list `getAllSeats` builds. -/
structure SeatData where
  seatIndex : Nat
  position : Pos
  player : Option SeatPlayer
  emptyPlayerData : Option EmptySeatData
  isEmpty : Bool
  hasFolded : Bool
  isDealer : Bool
deriving DecidableEq, Repr

/-- The body of the seat-building loop of `getAllSeats`
(`PokerTable.jsx` lines 122-150) for one `seatIndex`.
JavaScript falsiness notes: `player?.hole_cards || player?.cards` keeps an
empty array (arrays are truthy), hence `Option.orElse`;
`player?.stack || 1000` maps both an absent player and a zero stack to
1000; `player?.current_bet || 0` is `getD 0`. -/
def mkSeat (g : GameState) (foldedPositions : List Pos)
    (rotationOffset : Nat) (seatIndex : Nat) : SeatData :=
  let positionIndex := (seatIndex + rotationOffset) % 6
  let position := POSITION_ORDER.getD positionIndex Pos.BTN
  let isHeroSeat := position = g.human_position
  let isVillainSeat := position = g.villain_position
  let player := g.players position
  { seatIndex := seatIndex
    position := position
    player :=
      if isHeroSeat ∨ isVillainSeat then
        some { base := player
               position := position
               cards := (player.bind Player.hole_cards).orElse
                          (fun _ => player.bind Player.cards)
               current_bet := (player.map Player.current_bet).getD 0 }
      else none
    emptyPlayerData :=
      if ¬isHeroSeat ∧ ¬isVillainSeat then
        some { stack :=
                 match player.map Player.stack with
                 | some s => if s = 0 then 1000 else s
                 | none => 1000
               current_bet := (player.map Player.current_bet).getD 0 }
      else none
    isEmpty := decide (¬isHeroSeat ∧ ¬isVillainSeat)
    hasFolded := decide (position ∈ foldedPositions)
    isDealer := decide (position = Pos.BTN) }

/-- `getAllSeats` (`PokerTable.jsx` lines 119-153): build the six seats,
rotated so that the hero sits at seat index 0
(`rotationOffset = POSITION_ORDER.indexOf(heroPosition)`, lines 115-116). -/
def getAllSeats (g : GameState) (foldedPositions : List Pos) : List SeatData :=
  [0, 1, 2, 3, 4, 5].map (mkSeat g foldedPositions (POSITION_ORDER.indexOf g.human_position))

/-- The position labels of the six seats as a function of the hero's
position alone (the same expression `getAllSeats` computes per seat). -/
def seatPositions (heroPosition : Pos) : List Pos :=
  [0, 1, 2, 3, 4, 5].map
    (fun seatIndex => POSITION_ORDER.getD ((seatIndex + POSITION_ORDER.indexOf heroPosition) % 6) Pos.BTN)

/-- `useGameState.isHumanTurn`: the JavaScript truthiness chain
`gameState && gameState.action_on && gameState.players[gameState.action_on]?.is_human
&& !gameState.hand_complete && !processingComputer`, read as a boolean. -/
def isHumanTurn (gameState : Option GameState) (processingComputer : Bool) : Bool :=
  match gameState with
  | none => false
  | some g =>
    match g.action_on with
    | none => false
    | some p =>
      (match g.players p with
       | some pl => pl.is_human
       | none => false)
      && !g.hand_complete && !processingComputer

/-- A concrete preflop snapshot used in witnesses and counterexamples:
hero at BTN, villain at SB, server hand id 1. -/
def sampleHand1 : GameState :=
  { hand_id := some 1
    street := Street.preflop
    human_position := Pos.BTN
    villain_position := Pos.SB
    action_on := some Pos.UTG
    players := fun _ => none
    hand_complete := false
    action_history := none }

/-- The next hand at the same seats: only the server hand id differs. -/
def sampleHand2 : GameState := { sampleHand1 with hand_id := some 2 }

/-- The same hand with an authoritative history reporting a fold at UTG. -/
def sampleHistoryHand : GameState :=
  { sampleHand1 with
      action_history := some [⟨Pos.UTG, "fold", 0⟩, ⟨Pos.SB, "call", 10⟩] }

/-- A visualizer state mid-sequence: highlighting CO, UTG and MP already
marked folded, sequence not yet complete. -/
def stAtCO : VisState :=
  { visualActionOn := some Pos.CO
    foldedPositions := [Pos.UTG, Pos.MP]
    preflopDone := false }

/-- An initial hook state: no snapshot, no error. -/
def hookStart : HookState := { gameState := none, error := none }

/-- A visualizer state whose sequence has completed. -/
def stDone : VisState :=
  { visualActionOn := none
    foldedPositions := [Pos.UTG, Pos.MP, Pos.CO]
    preflopDone := true }

/-- A machine mid-hand 1: the sequencer highlights CO and the CO timer
step has been scheduled (the effect closure captured hero BTN, villain SB). -/
def staleStepMachine : Machine :=
  { st := stAtCO
    ref := some (handKey sampleHand1 0)
    pending := PendingStep.scheduled Pos.BTN Pos.SB Pos.CO }

/-- The machine after the CO timer fires and, while its advance call is
still in flight, a snapshot of the next hand arrives (cleanup runs
`clearTimeout`, then the reset effect runs). -/
def afterResetMachine : Machine :=
  applyEvent (applyEvent staleStepMachine VisEvent.timerFires)
    (VisEvent.newHand sampleHand2 100)

/-- The machine after the stale in-flight call then resolves. -/
def staleResolvedMachine : Machine :=
  applyEvent afterResetMachine VisEvent.advanceResolves

end PokerTrainerV2

namespace PokerTrainerV2

/-- C1: from the reset state and while the street stays preflop, the
sequencer with the human at index `k` of `PREFLOP_ACTION_ORDER` visits
exactly the positions at indices `0..k-1` in order, each step after the
fixed 500 ms delay and each invoking the advance-one-computer-action
collaborator; the folded set it builds is exactly the visited positions
minus the villain seat (hence the villain and every seat at index ≥ k are
never marked folded by the sequencer); it signals `onHeroCanAct(true)`
exactly once, and the sequence is complete (with the highlight cleared)
precisely when at least one step ran, i.e. when `k > 0`; at `k = 0` it
waits on the human with the sequence not yet complete. -/
theorem c1_preflop_sequence (k : Fin 6) (villain : Pos) :
    runSequencer Street.preflop (PREFLOP_ACTION_ORDER.getD k.val Pos.UTG) villain
      { visualActionOn := some Pos.UTG, foldedPositions := [], preflopDone := false } 6 =
    ((PREFLOP_ACTION_ORDER.take k.val).map (fun p => ⟨p, 500, true⟩),
     { visualActionOn :=
         cond (PREFLOP_ACTION_ORDER.take k.val).isEmpty (some Pos.UTG) none
       foldedPositions :=
         (PREFLOP_ACTION_ORDER.take k.val).filter (fun p => p != villain)
       preflopDone := !(PREFLOP_ACTION_ORDER.take k.val).isEmpty },
     [true]) := by
  revert villain
  fin_cases k <;> decide

/-- C2: one run of the progression effect on any not-yet-complete state
that is highlighting some position, under an authoritative street other
than preflop, sets `isPreflopVisualSequenceComplete` and signals
`onHeroCanAct(true)`, regardless of the highlighted position. -/
theorem c2_street_override (street : Street) (hero villain p : Pos) (st : VisState)
    (h1 : street ≠ Street.preflop) (h2 : st.preflopDone = false)
    (h3 : st.visualActionOn = some p) :
    progressionEffect true street hero villain st =
      ({ st with preflopDone := true }, some true, none) := by
  simp [progressionEffect, h1, h2, h3]

/-- Witness for C2 at a concrete state and street. -/
theorem c2_street_override_witness :
    progressionEffect true Street.flop Pos.BTN Pos.SB stAtCO =
      ({ stAtCO with preflopDone := true }, some true, none) :=
  c2_street_override Street.flop Pos.BTN Pos.SB Pos.CO stAtCO (by decide) rfl rfl

/-- C5: whenever the derived hand key differs from the one stored in
`handIdRef`, the reset effect stores the new key, resets `foldedPositions`
to empty, clears `isPreflopVisualSequenceComplete`, starts sequencing at
UTG, and invokes the human-may-act callback with `false`. -/
theorem c5_new_hand_reset (g : GameState) (now : Nat) (ref : Option HandKey)
    (st : VisState) (h : ref ≠ some (handKey g now)) :
    newHandEffect (some g) now ref st =
      (some (handKey g now),
       { visualActionOn := some Pos.UTG, foldedPositions := [], preflopDone := false },
       some false) := by
  simp [newHandEffect, h]

/-- Witness for C5 on a concrete snapshot with an empty ref. -/
theorem c5_new_hand_reset_witness :
    newHandEffect (some sampleHand1) 0 none stAtCO =
      (some (handKey sampleHand1 0),
       { visualActionOn := some Pos.UTG, foldedPositions := [], preflopDone := false },
       some false) :=
  c5_new_hand_reset sampleHand1 0 none stAtCO (by decide)

/-- C6 counterexample: a failing advance call does NOT stop the animation.
With hero BTN, villain SB, step at CO and a rejecting API call, the timer
callback still computes the next position (BTN, the hero), marks the
sequence complete, clears the highlight and signals human-may-act — while
also surfacing the generic error message. -/
theorem c6_counterexample :
    (timerCallback Pos.BTN Pos.SB Pos.CO (Except.error none) hookStart stAtCO).vis.preflopDone
        = true ∧
    (timerCallback Pos.BTN Pos.SB Pos.CO (Except.error none) hookStart stAtCO).vis.visualActionOn
        = none ∧
    (timerCallback Pos.BTN Pos.SB Pos.CO (Except.error none) hookStart stAtCO).heroCanActSignal
        = some true ∧
    (timerCallback Pos.BTN Pos.SB Pos.CO (Except.error none) hookStart stAtCO).hook.error
        = some "Failed to process computer action" := by
  decide

/-- C6 (amended): on a failing advance call the visualizer makes the call
exactly once (no retry) and the error is surfaced to the hook's generic
error channel; but because `triggerComputerAction` swallows the failure
and resolves with `null`, the callback's post-await part still runs: the
visual state and the human-may-act signal are exactly those of a
successful call, so the animation keeps advancing. -/
theorem c6_error_handling (hero villain p : Pos) (e : Option String)
    (hs : HookState) (st : VisState) (g : GameState) :
    (timerCallback hero villain p (Except.error e) hs st).advanceCalls = 1 ∧
    (timerCallback hero villain p (Except.error e) hs st).hook.error =
      some (e.getD "Failed to process computer action") ∧
    (timerCallback hero villain p (Except.error e) hs st).vis =
      (timerCallback hero villain p (Except.ok g) hs st).vis ∧
    (timerCallback hero villain p (Except.error e) hs st).heroCanActSignal =
      (timerCallback hero villain p (Except.ok g) hs st).heroCanActSignal := by
  simp [timerCallback, triggerComputerAction]

/-- C10: `isHumanTurn` is true exactly when a snapshot exists, its
`action_on` names a position, the player recorded there has
`is_human = true`, the hand is not complete, and no computer-action loop
is in flight. -/
theorem c10_isHumanTurn (gameState : Option GameState) (processingComputer : Bool) :
    isHumanTurn gameState processingComputer = true ↔
      ∃ g, gameState = some g ∧ ∃ p, g.action_on = some p ∧
        (∃ pl, g.players p = some pl ∧ pl.is_human = true) ∧
        g.hand_complete = false ∧ processingComputer = false := by
  cases gameState with
  | none => simp [isHumanTurn]
  | some g =>
    cases hao : g.action_on with
    | none => simp [isHumanTurn, hao]
    | some p =>
      cases hpl : g.players p with
      | none => simp [isHumanTurn, hao, hpl]
      | some pl => simp [isHumanTurn, hao, hpl, and_assoc]

theorem mem_jsSetAdd (s : List Pos) (p q : Pos) :
    q ∈ jsSetAdd s p ↔ q ∈ s ∨ q = p := by
  unfold jsSetAdd
  split
  · next hp =>
      constructor
      · exact Or.inl
      · rintro (h | rfl)
        · exact h
        · exact hp
  · simp

theorem jsSetAdd_sub (s : List Pos) (p : Pos) : s ⊆ jsSetAdd s p :=
  fun _ hx => (mem_jsSetAdd s p _).mpr (Or.inl hx)

theorem jsSetAdd_of_mem (s : List Pos) (p : Pos) (h : p ∈ s) :
    jsSetAdd s p = s := by
  unfold jsSetAdd
  exact if_pos h

theorem foldl_jsSetAdd_sub (l s : List Pos) : s ⊆ l.foldl jsSetAdd s := by
  induction l generalizing s with
  | nil => exact fun _ hx => hx
  | cons a t ih => exact fun x hx => ih (jsSetAdd s a) (jsSetAdd_sub s a hx)

theorem mem_foldl_jsSetAdd (l s : List Pos) (q : Pos) :
    q ∈ l.foldl jsSetAdd s ↔ q ∈ s ∨ q ∈ l := by
  induction l generalizing s with
  | nil => simp
  | cons a t ih =>
      simp only [List.foldl_cons, ih, mem_jsSetAdd, List.mem_cons]
      tauto

theorem foldl_jsSetAdd_of_sub (l s : List Pos) (h : ∀ x ∈ l, x ∈ s) :
    l.foldl jsSetAdd s = s := by
  induction l with
  | nil => rfl
  | cons a t ih =>
      simp only [List.foldl_cons, jsSetAdd_of_mem s a (h a (List.mem_cons_self a t))]
      exact ih fun x hx => h x (List.mem_cons_of_mem a hx)

theorem toFinset_jsSetAdd (s : List Pos) (p : Pos) :
    (jsSetAdd s p).toFinset = s.toFinset ∪ {p} := by
  unfold jsSetAdd
  split
  · next hp =>
      rw [eq_comm, Finset.union_eq_left]
      simpa using hp
  · simp

theorem toFinset_foldl_jsSetAdd (l s : List Pos) :
    (l.foldl jsSetAdd s).toFinset = s.toFinset ∪ l.toFinset := by
  induction l generalizing s with
  | nil => simp
  | cons a t ih =>
      simp only [List.foldl_cons, ih, toFinset_jsSetAdd, List.toFinset_cons]
      rw [Finset.union_assoc, Finset.insert_eq]

theorem progressionEffect_folded (b : Bool) (s : Street) (h v : Pos) (st : VisState) :
    ((progressionEffect b s h v st).1).foldedPositions = st.foldedPositions := by
  unfold progressionEffect
  split
  · rfl
  · cases hv : st.visualActionOn with
    | none => simp
    | some p =>
        simp only
        split
        · rfl
        · split <;> rfl

theorem stepPhaseB_folded (h p : Pos) (st : VisState) :
    ((stepPhaseB h p st).1).foldedPositions = st.foldedPositions := by
  simp only [stepPhaseB]
  split <;> rfl

theorem progressionEffect_done_of_done (b : Bool) (s : Street) (h v : Pos)
    (st : VisState) (hd : st.preflopDone = true) :
    ((progressionEffect b s h v st).1).preflopDone = true := by
  simp [progressionEffect, hd]

theorem stepPhaseB_done_of_done (h p : Pos) (st : VisState)
    (hd : st.preflopDone = true) :
    ((stepPhaseB h p st).1).preflopDone = true := by
  simp only [stepPhaseB]
  split
  · rfl
  · exact hd

theorem historySyncEffect_visualActionOn (gs : Option GameState) (st : VisState) :
    (historySyncEffect gs st).visualActionOn = st.visualActionOn := by
  cases gs with
  | none => rfl
  | some g =>
      cases hh : g.action_history with
      | none => simp [historySyncEffect, hh]
      | some hist =>
          simp only [historySyncEffect, hh]
          split <;> rfl

theorem historySyncEffect_done (gs : Option GameState) (st : VisState) :
    (historySyncEffect gs st).preflopDone = st.preflopDone := by
  cases gs with
  | none => rfl
  | some g =>
      cases hh : g.action_history with
      | none => simp [historySyncEffect, hh]
      | some hist =>
          simp only [historySyncEffect, hh]
          split <;> rfl

theorem stepPhaseA_folded_sub (v p : Pos) (st : VisState) :
    st.foldedPositions ⊆ (stepPhaseA v p st).foldedPositions := by
  unfold stepPhaseA
  split
  · exact fun _ hx => hx
  · exact jsSetAdd_sub _ _

theorem stepPhaseA_done (v p : Pos) (st : VisState) :
    (stepPhaseA v p st).preflopDone = st.preflopDone := by
  unfold stepPhaseA
  split <;> rfl

/-- C3 counterexample: the source has no cancellation flag, only
`clearTimeout`, which cannot reach a callback that has already fired.
Concretely: during hand 1 (hero BTN, villain SB) the CO step's timer fires
and its advance call is in flight; the next hand's snapshot arrives and the
reset runs (state becomes UTG-highlighted, nothing folded, sequence not
complete, and `clearTimeout` is a no-op on the fired timer); when the stale
call then resolves, its phase B still runs with the captured values: it
flips `isPreflopVisualSequenceComplete` to `true` and clears the highlight
— a state mutation applied to the hand that was reset, contradicting the
claim. -/
theorem c3_counterexample :
    afterResetMachine.st.preflopDone = false ∧
    afterResetMachine.st.visualActionOn = some Pos.UTG ∧
    afterResetMachine.st.foldedPositions = [] ∧
    afterResetMachine.pending = PendingStep.inFlight Pos.BTN Pos.SB Pos.CO ∧
    staleResolvedMachine.st.preflopDone = true ∧
    staleResolvedMachine.st.visualActionOn = none := by
  decide

/-- C3 (amended): a pending step whose timer has NOT yet fired is indeed
cancelled by a new-hand arrival (the effect cleanup's `clearTimeout`), and
likewise by unmount, after which neither a firing nor a resolution event
mutates any state; but a step whose timer has already fired (advance call
in flight) is beyond `clearTimeout`'s reach and still applies its
post-await mutations (see the counterexample). -/
theorem c3_scheduled_step_cancelled (m : Machine) (h v p : Pos) (g : GameState)
    (now : Nat) (hp : m.pending = PendingStep.scheduled h v p) :
    (applyEvent m (VisEvent.newHand g now)).pending = PendingStep.idle ∧
    applyEvent (applyEvent m (VisEvent.newHand g now)) VisEvent.timerFires =
      applyEvent m (VisEvent.newHand g now) ∧
    applyEvent (applyEvent m (VisEvent.newHand g now)) VisEvent.advanceResolves =
      applyEvent m (VisEvent.newHand g now) ∧
    (applyEvent m VisEvent.unmountCleanup).st = m.st ∧
    (applyEvent m VisEvent.unmountCleanup).pending = PendingStep.idle ∧
    applyEvent (applyEvent m VisEvent.unmountCleanup) VisEvent.timerFires =
      applyEvent m VisEvent.unmountCleanup ∧
    applyEvent (applyEvent m VisEvent.unmountCleanup) VisEvent.advanceResolves =
      applyEvent m VisEvent.unmountCleanup := by
  obtain ⟨st, ref, pending⟩ := m
  simp only [Machine.mk.injEq] at hp ⊢
  subst hp
  exact ⟨rfl, rfl, rfl, rfl, rfl, rfl, rfl⟩

/-- Witness for the amended C3 at the concrete scheduled CO step. -/
theorem c3_scheduled_step_cancelled_witness :
    (applyEvent staleStepMachine (VisEvent.newHand sampleHand2 100)).pending
        = PendingStep.idle ∧
    applyEvent (applyEvent staleStepMachine (VisEvent.newHand sampleHand2 100))
        VisEvent.timerFires =
      applyEvent staleStepMachine (VisEvent.newHand sampleHand2 100) ∧
    applyEvent (applyEvent staleStepMachine (VisEvent.newHand sampleHand2 100))
        VisEvent.advanceResolves =
      applyEvent staleStepMachine (VisEvent.newHand sampleHand2 100) ∧
    (applyEvent staleStepMachine VisEvent.unmountCleanup).st = staleStepMachine.st ∧
    (applyEvent staleStepMachine VisEvent.unmountCleanup).pending = PendingStep.idle ∧
    applyEvent (applyEvent staleStepMachine VisEvent.unmountCleanup)
        VisEvent.timerFires = applyEvent staleStepMachine VisEvent.unmountCleanup ∧
    applyEvent (applyEvent staleStepMachine VisEvent.unmountCleanup)
        VisEvent.advanceResolves = applyEvent staleStepMachine VisEvent.unmountCleanup :=
  c3_scheduled_step_cancelled staleStepMachine Pos.BTN Pos.SB Pos.CO sampleHand2 100 rfl

/-- C4: under every visualizer operation that is not a new-hand detection,
`foldedPositions` only grows (no position is ever removed); the new-hand
detection resets it to exactly the empty set. -/
theorem c4_folded_monotone (op : VisOp) (m : FullState) :
    (isNewHandDetection op m.ref = false →
      m.vis.foldedPositions ⊆ (applyOp op m).vis.foldedPositions) ∧
    (isNewHandDetection op m.ref = true →
      (applyOp op m).vis.foldedPositions = []) := by
  obtain ⟨ref, st⟩ := m
  constructor
  · intro hdet
    cases op with
    | newHandCheck gs now =>
        cases gs with
        | none => exact fun _ hx => hx
        | some g =>
            simp only [isNewHandDetection, decide_eq_false_iff_not, not_not] at hdet
            simp only [applyOp, newHandEffect, if_pos hdet]
            exact fun _ hx => hx
    | historySync gs =>
        cases gs with
        | none => exact fun _ hx => hx
        | some g =>
            simp only [applyOp, historySyncEffect]
            cases g.action_history with
            | none => exact fun _ hx => hx
            | some hist =>
                simp only
                split
                · exact foldl_jsSetAdd_sub _ _
                · exact fun _ hx => hx
    | progressionRun b s h v =>
        intro x hx
        simpa [applyOp, progressionEffect_folded] using hx
    | timerPhaseA v p =>
        exact stepPhaseA_folded_sub v p st
    | timerPhaseB h p =>
        intro x hx
        simpa [applyOp, stepPhaseB_folded] using hx
  · intro hdet
    cases op with
    | newHandCheck gs now =>
        cases gs with
        | none => simp [isNewHandDetection] at hdet
        | some g =>
            simp only [isNewHandDetection, decide_eq_true_eq] at hdet
            simp [applyOp, newHandEffect, hdet]
    | historySync gs => simp [isNewHandDetection] at hdet
    | progressionRun b s h v => simp [isNewHandDetection] at hdet
    | timerPhaseA v p => simp [isNewHandDetection] at hdet
    | timerPhaseB h p => simp [isNewHandDetection] at hdet

/-- Witness for C4: the CO fold mark grows the set at a concrete state. -/
theorem c4_folded_monotone_witness :
    stAtCO.foldedPositions ⊆
      (applyOp (VisOp.timerPhaseA Pos.SB Pos.CO) ⟨none, stAtCO⟩).vis.foldedPositions :=
  (c4_folded_monotone (VisOp.timerPhaseA Pos.SB Pos.CO) ⟨none, stAtCO⟩).1 rfl

/-- C7: once `isPreflopVisualSequenceComplete` is true, every visualizer
operation other than a new-hand detection keeps it true; the new-hand
detection (and only it) resets it to false. -/
theorem c7_done_latch (op : VisOp) (m : FullState) :
    (isNewHandDetection op m.ref = false → m.vis.preflopDone = true →
      (applyOp op m).vis.preflopDone = true) ∧
    (isNewHandDetection op m.ref = true →
      (applyOp op m).vis.preflopDone = false) := by
  obtain ⟨ref, st⟩ := m
  constructor
  · intro hdet hd
    cases op with
    | newHandCheck gs now =>
        cases gs with
        | none => exact hd
        | some g =>
            simp only [isNewHandDetection, decide_eq_false_iff_not, not_not] at hdet
            simp only [applyOp, newHandEffect, if_pos hdet]
            exact hd
    | historySync gs =>
        simpa [applyOp, historySyncEffect_done] using hd
    | progressionRun b s h v =>
        exact progressionEffect_done_of_done b s h v st hd
    | timerPhaseA v p =>
        simpa [applyOp, stepPhaseA_done] using hd
    | timerPhaseB h p =>
        exact stepPhaseB_done_of_done h p st hd
  · intro hdet
    cases op with
    | newHandCheck gs now =>
        cases gs with
        | none => simp [isNewHandDetection] at hdet
        | some g =>
            simp only [isNewHandDetection, decide_eq_true_eq] at hdet
            simp [applyOp, newHandEffect, hdet]
    | historySync gs => simp [isNewHandDetection] at hdet
    | progressionRun b s h v => simp [isNewHandDetection] at hdet
    | timerPhaseA v p => simp [isNewHandDetection] at hdet
    | timerPhaseB h p => simp [isNewHandDetection] at hdet

/-- Witness for C7: a completed state stays completed across a stale
phase-B resolution. -/
theorem c7_done_latch_witness :
    (applyOp (VisOp.timerPhaseB Pos.BTN Pos.CO) ⟨none, stDone⟩).vis.preflopDone = true :=
  (c7_done_latch (VisOp.timerPhaseB Pos.BTN Pos.CO) ⟨none, stDone⟩).1 rfl rfl

/-- C8: after the reconciliation effect runs on a snapshot whose history
is present, every position the history reports as folded is in
`foldedPositions`; the reconciliation is idempotent (adding an
already-present position is a no-op), and relative to the sequencer's own
optimistic fold mark (phase A) either order yields the same set of folded
positions. -/
theorem c8_history_reconciliation (g : GameState) (hist : List HistEntry)
    (st : VisState) (v p : Pos)
    (hh : g.action_history = some hist) :
    (∀ a ∈ hist, a.action = "fold" →
      a.position ∈ (historySyncEffect (some g) st).foldedPositions) ∧
    historySyncEffect (some g) (historySyncEffect (some g) st) =
      historySyncEffect (some g) st ∧
    (historySyncEffect (some g) (stepPhaseA v p st)).foldedPositions.toFinset =
      (stepPhaseA v p (historySyncEffect (some g) st)).foldedPositions.toFinset := by
  refine ⟨?_, ?_, ?_⟩
  · intro a ha hfold
    have hmem : a.position ∈
        (hist.filter (fun b => b.action == "fold")).map HistEntry.position :=
      List.mem_map_of_mem _ (List.mem_filter.mpr ⟨ha, by simp [hfold]⟩)
    have hlen : 0 <
        ((hist.filter (fun b => b.action == "fold")).map HistEntry.position).length :=
      List.length_pos.mpr (List.ne_nil_of_mem hmem)
    simp only [historySyncEffect, hh, if_pos hlen]
    exact (mem_foldl_jsSetAdd _ _ _).mpr (Or.inr hmem)
  · simp only [historySyncEffect, hh]
    split
    · next hlen =>
        simp only [if_pos hlen]
        congr 1
        exact foldl_jsSetAdd_of_sub _ _
          (fun x hx => (mem_foldl_jsSetAdd _ _ _).mpr (Or.inr hx))
    · next hlen => simp only [if_neg hlen]
  · simp only [historySyncEffect, hh]
    split
    · next hlen =>
        unfold stepPhaseA
        split
        · rfl
        · simp only [toFinset_foldl_jsSetAdd, toFinset_jsSetAdd]
          rw [Finset.union_right_comm]
    · next hlen => rfl

/-- Witness for C8 on a concrete history reporting a fold at UTG. -/
theorem c8_history_reconciliation_witness :
    (∀ a ∈ [(⟨Pos.UTG, "fold", 0⟩ : HistEntry), ⟨Pos.SB, "call", 10⟩],
      a.action = "fold" →
      a.position ∈ (historySyncEffect (some sampleHistoryHand) stAtCO).foldedPositions) ∧
    historySyncEffect (some sampleHistoryHand)
        (historySyncEffect (some sampleHistoryHand) stAtCO) =
      historySyncEffect (some sampleHistoryHand) stAtCO ∧
    (historySyncEffect (some sampleHistoryHand)
        (stepPhaseA Pos.SB Pos.CO stAtCO)).foldedPositions.toFinset =
      (stepPhaseA Pos.SB Pos.CO
        (historySyncEffect (some sampleHistoryHand) stAtCO)).foldedPositions.toFinset :=
  c8_history_reconciliation sampleHistoryHand _ stAtCO Pos.SB Pos.CO rfl

theorem getAllSeats_map_position (g : GameState) (f : List Pos) :
    (getAllSeats g f).map SeatData.position = seatPositions g.human_position := rfl

theorem seatPositions_head (h : Pos) : (seatPositions h).head? = some h := by
  cases h <;> rfl

theorem seatPositions_count (h q : Pos) : (seatPositions h).count q = 1 := by
  cases h <;> cases q <;> rfl

theorem mkSeat_isDealer (g : GameState) (f : List Pos) (off i : Nat) :
    (mkSeat g f off i).isDealer = decide ((mkSeat g f off i).position = Pos.BTN) := rfl

theorem isSome_ite_some {α : Type} (c : Prop) [Decidable c] (x : α) :
    (if c then some x else none).isSome = decide c := by
  split <;> simp_all

theorem decide_not_and_not (a b : Prop) [Decidable a] [Decidable b] :
    decide (¬a ∧ ¬b) = !decide (a ∨ b) := by
  by_cases h1 : a <;> by_cases h2 : b <;> simp [h1, h2]

theorem mkSeat_player_isSome (g : GameState) (f : List Pos) (off i : Nat) :
    (mkSeat g f off i).player.isSome =
      decide ((mkSeat g f off i).position = g.human_position ∨
              (mkSeat g f off i).position = g.villain_position) := by
  simp only [mkSeat]
  exact isSome_ite_some _ _

theorem mkSeat_isEmpty (g : GameState) (f : List Pos) (off i : Nat) :
    (mkSeat g f off i).isEmpty =
      !decide ((mkSeat g f off i).position = g.human_position ∨
               (mkSeat g f off i).position = g.villain_position) := by
  simp only [mkSeat]
  exact decide_not_and_not _ _

theorem seatPositions_two_live (h v : Pos) (hvv : v ≠ h) :
    (([0, 1, 2, 3, 4, 5] : List Nat).filter (fun i =>
      decide (¬(POSITION_ORDER.getD ((i + POSITION_ORDER.indexOf h) % 6) Pos.BTN = h) ∧
        ¬(POSITION_ORDER.getD ((i + POSITION_ORDER.indexOf h) % 6) Pos.BTN = v)))).length
      = 4 := by
  revert hvv
  cases h <;> cases v <;> decide

/-- C9: for any snapshot whose villain seat differs from the hero seat,
`getAllSeats` returns exactly six seats; their position labels are a
permutation of the six labels (each occurring exactly once); the hero's
position sits at seat index 0; the dealer flag is set exactly on the BTN
seat; a seat carries player data exactly when it is the hero's or the
villain's; the remaining four seats are marked empty. -/
theorem c9_getAllSeats (g : GameState) (f : List Pos)
    (hvv : g.villain_position ≠ g.human_position) :
    (getAllSeats g f).length = 6 ∧
    ((getAllSeats g f).map SeatData.position).head? = some g.human_position ∧
    (∀ q : Pos, ((getAllSeats g f).map SeatData.position).count q = 1) ∧
    (∀ s ∈ getAllSeats g f, s.isDealer = decide (s.position = Pos.BTN)) ∧
    (∀ s ∈ getAllSeats g f, s.player.isSome =
      decide (s.position = g.human_position ∨ s.position = g.villain_position)) ∧
    (∀ s ∈ getAllSeats g f, s.isEmpty =
      !decide (s.position = g.human_position ∨ s.position = g.villain_position)) ∧
    ((getAllSeats g f).filter (fun s => s.isEmpty)).length = 4 := by
  refine ⟨rfl, ?_, ?_, ?_, ?_, ?_, ?_⟩
  · rw [getAllSeats_map_position]
    exact seatPositions_head _
  · intro q
    rw [getAllSeats_map_position]
    exact seatPositions_count _ q
  · intro s hs
    simp only [getAllSeats, List.mem_map] at hs
    obtain ⟨i, _, rfl⟩ := hs
    exact mkSeat_isDealer g f _ i
  · intro s hs
    simp only [getAllSeats, List.mem_map] at hs
    obtain ⟨i, _, rfl⟩ := hs
    exact mkSeat_player_isSome g f _ i
  · intro s hs
    simp only [getAllSeats, List.mem_map] at hs
    obtain ⟨i, _, rfl⟩ := hs
    exact mkSeat_isEmpty g f _ i
  · rw [getAllSeats, List.filter_map, List.length_map]
    exact seatPositions_two_live g.human_position g.villain_position hvv

/-- Witness for C9 on the concrete hand (hero BTN, villain SB). -/
theorem c9_getAllSeats_witness :
    (getAllSeats sampleHand1 []).length = 6 ∧
    ((getAllSeats sampleHand1 []).map SeatData.position).head?
        = some sampleHand1.human_position ∧
    (∀ q : Pos, ((getAllSeats sampleHand1 []).map SeatData.position).count q = 1) ∧
    (∀ s ∈ getAllSeats sampleHand1 [], s.isDealer = decide (s.position = Pos.BTN)) ∧
    (∀ s ∈ getAllSeats sampleHand1 [], s.player.isSome =
      decide (s.position = sampleHand1.human_position ∨
              s.position = sampleHand1.villain_position)) ∧
    (∀ s ∈ getAllSeats sampleHand1 [], s.isEmpty =
      !decide (s.position = sampleHand1.human_position ∨
               s.position = sampleHand1.villain_position)) ∧
    ((getAllSeats sampleHand1 []).filter (fun s => s.isEmpty)).length = 4 :=
  c9_getAllSeats sampleHand1 [] (by decide)

end PokerTrainerV2
